import Mathlib

/-
Shallow embedding of hdx_extractor.py (HDXProcessor and lambda_handler).

JSON documents exchanged with the Raw Data API, configuration templates and
export descriptors are modelled by the inductive type JValue; Python dicts are
association lists with unique keys and insertion order, dict lookup is
lookupField and dict assignment is setField (replace in place, append when the
key is absent, matching Python 3.7+ dict semantics).

HTTP effects are abstracted by oracles: a function from the call index to the
outcome of that call (a JSON body, or a raised requests exception).  Unbounded
loops (the while True poll loop, the recursive resubmission after a RetryError)
take a fuel argument and return none when the fuel runs out, so that
non-termination is distinguished from completion and from a raised Python
exception.
-/

namespace HDXExtractor

/-- JSON values: the config template, API response bodies and recorded results. -/
inductive JValue where
  | null : JValue
  | bool : Bool → JValue
  | num : Int → JValue
  | str : String → JValue
  | arr : List JValue → JValue
  | obj : List (String × JValue) → JValue
deriving Repr

/-- Python dict lookup on an association list: the value at the first matching key. -/
def lookupField : List (String × JValue) → String → Option JValue
  | [], _ => none
  | (k, v) :: rest, key => if k = key then some v else lookupField rest key

/-- Python dict assignment d[key] = v: replace the first binding of key in place,
append a new binding when key is absent. -/
def setField : List (String × JValue) → String → JValue → List (String × JValue)
  | [], key, v => [(key, v)]
  | (k, w) :: rest, key, v =>
    if k = key then (key, v) :: rest else (k, w) :: setField rest key v

/-- response[field] on a JSON value: a lookup that yields none (a Python
KeyError / TypeError) when the value is not an object or lacks the field. -/
def JValue.getField : JValue → String → Option JValue
  | .obj fields, key => lookupField fields key
  | _, _ => none

/-- Python equality test between a JSON value and a string literal: true exactly
when the value is that string (comparison with a non-string is False). -/
def jeqStr (v : JValue) (s : String) : Bool :=
  match v with
  | .str t => t = s
  | _ => false

/-- HDXProcessor.generate_filtered_config (hdx_extractor.py lines 38-42): deep
copy the template, then for each key of the property mapping of the export
descriptor assign config_temp["key"] = properties.get(key) — the literal field
name "key", so each iteration overwrites the previous one.  The request is
modelled by the resulting dictionary (json.dumps serializes it verbatim). -/
def generate_filtered_config (config props : List (String × JValue)) :
    List (String × JValue) :=
  (props.map Prod.fst).foldl
    (fun acc key => setField acc "key" ((lookupField props key).getD JValue.null))
    config

/-- Outcome of one requests.get call against the status endpoint: a JSON body
obtained with a 2xx status, or a raised requests.exceptions.RequestException
(connection failure, timeout, raise_for_status on a 4xx/5xx). -/
inductive GetResult where
  | ok : JValue → GetResult
  | exn : GetResult
deriving Repr

/-- HDXProcessor.retry_get_request (lines 83-90): return the JSON body, and on
any RequestException log and return a synthesized dict with status ERROR (and
no result field). -/
def retry_get_request : GetResult → JValue
  | .ok body => body
  | .exn => .obj [("status", .str "ERROR")]

/-- Outcome of handling one task in track_tasks_status: an entry recorded into
the results dict, or a Python exception (KeyError on a missing field)
propagating out of the method. -/
inductive TaskOutcome where
  | recorded : JValue → TaskOutcome
  | raised : TaskOutcome
deriving Repr

/-- The while True loop of track_tasks_status (lines 102-117): re-query the
status URL; when response["status"] is in [SUCCESS, ERROR, FAILURE] record
response["result"] and break, otherwise sleep 30 seconds and loop.  The oracle
gives the i-th GET outcome for this task; the result pairs the task outcome
with the total number of status calls issued, and is none when the fuel runs
out with the loop still spinning. -/
def poll_loop (oracle : Nat → GetResult) : Nat → Nat → Option (TaskOutcome × Nat)
  | _, 0 => none
  | i, fuel + 1 =>
    let response := retry_get_request (oracle i)
    match response.getField "status" with
    | none => some (.raised, i + 1)
    | some st =>
      if jeqStr st "SUCCESS" || jeqStr st "ERROR" || jeqStr st "FAILURE" then
        match response.getField "result" with
        | none => some (.raised, i + 1)
        | some r => some (.recorded r, i + 1)
      else
        poll_loop oracle (i + 1) fuel

/-- The per-task body of track_tasks_status (lines 95-119): first status call,
then branch on response["status"]: SUCCESS records response["result"], PENDING
or STARTED enters the re-poll loop, anything else records the literal string
FAILURE.  Returns the task outcome and the number of status calls issued. -/
def track_one (oracle : Nat → GetResult) (fuel : Nat) : Option (TaskOutcome × Nat) :=
  let response := retry_get_request (oracle 0)
  match response.getField "status" with
  | none => some (.raised, 1)
  | some st =>
    if jeqStr st "SUCCESS" then
      match response.getField "result" with
      | none => some (.raised, 1)
      | some r => some (.recorded r, 1)
    else if jeqStr st "PENDING" || jeqStr st "STARTED" then
      poll_loop oracle 1 fuel
    else
      some (.recorded (.str "FAILURE"), 1)

/-- HDXProcessor.track_tasks_status (lines 92-123): iterate the task ids,
accumulating results[task_id]; a Python exception raised while handling a task
propagates and aborts the whole method (Except.error), and when every task
completes the results dict is dumped to result.json (Except.ok).  The oracles
argument gives each task id its own sequence of status-call outcomes. -/
def track_tasks_status (oracles : String → Nat → GetResult) (fuel : Nat) :
    List String → List (String × JValue) → Option (Except Unit (List (String × JValue)))
  | [], results => some (.ok results)
  | tid :: rest, results =>
    match track_one (oracles tid) fuel with
    | none => none
    | some (.raised, _) => some (.error ())
    | some (.recorded v, _) => track_tasks_status oracles fuel rest (setField results tid v)

/-- Outcome of one full POST through the mounted transport adapter (a fresh
Retry with total = 2 on status 429/502 is built on every call, lines 50-60):
an HTTP-success JSON body, a requests.exceptions.RetryError raised once that
bounded budget is exhausted, or any other exception. -/
inductive PostOutcome where
  | ok : JValue → PostOutcome
  | retryError : PostOutcome
  | otherExn : PostOutcome
deriving Repr

/-- How HDXProcessor.retry_post_request terminates: the value of
response.json()["task_id"], a KeyError because task_id is absent, or some
other exception propagating uncaught. -/
inductive SubmitResult where
  | taskId : JValue → SubmitResult
  | keyErrorRaised : SubmitResult
  | otherRaised : SubmitResult
deriving Repr

/-- HDXProcessor.retry_post_request (lines 49-77): POST the request body; on
HTTP success return response.json()["task_id"] (KeyError when absent); only
requests.exceptions.RetryError is caught, upon which handle_rate_limit sleeps
61 seconds and the whole method recurses with a fresh transport retry budget;
every other exception propagates.  The oracle gives the outcome of the n-th
full POST attempt; the returned list collects the cooldown sleep durations in
order, and none means the fuel ran out while the unbounded recursion was still
resubmitting. -/
def retry_post_request (oracle : Nat → PostOutcome) :
    Nat → Nat → Option (SubmitResult × List Nat)
  | _, 0 => none
  | n, fuel + 1 =>
    match oracle n with
    | .ok body =>
      match body.getField "task_id" with
      | some t => some (.taskId t, [])
      | none => some (.keyErrorRaised, [])
    | .otherExn => some (.otherRaised, [])
    | .retryError =>
      match retry_post_request oracle (n + 1) fuel with
      | none => none
      | some (r, sleeps) => some (r, 61 :: sleeps)

/-- Observable I/O effects of the discovery and submission pipeline: one GET of
the scheduled-exports endpoint with its frequency parameter and attempt index,
or one submission POST carrying its request dictionary. -/
inductive Eff where
  | schedGet : String → Nat → Eff
  | post : List (String × JValue) → Eff
deriving Repr

/-- The retry loop of HDXProcessor.get_scheduled_exports (lines 127-136) over
the remaining attempt indices: each attempt either yields the features list of
the response (some) or raises an exception that the broad catch logs (none).
Returns the result together with the trace of GETs issued. -/
def get_scheduled_go (freq : String) (oracle : Nat → Option (List JValue)) :
    List Nat → Except Unit (List JValue) × List Eff
  | [] => (.error (), [])
  | r :: rest =>
    match oracle r with
    | some fs => (.ok fs, [.schedGet freq r])
    | none =>
      let next := get_scheduled_go freq oracle rest
      (next.1, .schedGet freq r :: next.2)

/-- HDXProcessor.get_scheduled_exports (lines 125-137): up to max_retries = 3
attempts; when every attempt fails the method raises (Except.error). -/
def get_scheduled_exports (freq : String) (oracle : Nat → Option (List JValue)) :
    Except Unit (List JValue) × List Eff :=
  get_scheduled_go freq oracle (List.range 3)

/-- The descriptor built for one explicit country code (line 143):
a dict with a properties dict holding iso3. -/
def descriptor_of_country (c : String) : JValue :=
  .obj [("properties", .obj [("iso3", .str c)])]

/-- Python truthiness of the countries argument: None and the empty list are
falsy. -/
def truthyList : Option (List String) → Bool
  | some (_ :: _) => true
  | _ => false

/-- Python truthiness of the fetch_scheduled_exports argument: None and the
empty string are falsy. -/
def truthyStr : Option String → Bool
  | some s => !(s = "")
  | none => false

/-- Lines 140-151 of init_call: build all_export_details from the explicit
countries (first) and, when fetch_scheduled_exports is truthy, the features
returned by scheduled discovery (extended after).  A fatal discovery failure
propagates. -/
def all_export_details (countries : Option (List String)) (fse : Option String)
    (sched : String → Nat → Option (List JValue)) :
    Except Unit (List JValue) × List Eff :=
  let countryExports : List JValue :=
    if truthyList countries then (countries.getD []).map descriptor_of_country else []
  if truthyStr fse then
    let freq := fse.getD ""
    let fetched := get_scheduled_exports freq (sched freq)
    (fetched.1.map (fun feats => countryExports ++ feats), fetched.2)
  else
    (.ok countryExports, [])

/-- export["properties"] viewed as a dict (line 40): none models the Python
error raised when the field is absent or not a dict. -/
def props_of (e : JValue) : Option (List (String × JValue)) :=
  match e.getField "properties" with
  | some (.obj fs) => some fs
  | _ => none

/-- The submission loop of init_call (lines 153-159): each export goes through
process_export (generate_filtered_config then retry_post_request, abstracted
here by the total submit oracle on the request dictionary); task ids that are
not None are collected.  Returns the task-id list (or a raised error on a
malformed descriptor) and the trace of POSTs issued. -/
def process_exports (config : List (String × JValue))
    (submit : List (String × JValue) → Option String) :
    List JValue → Except Unit (List String) × List Eff
  | [] => (.ok [], [])
  | e :: rest =>
    match props_of e with
    | none => (.error (), [])
    | some ps =>
      let req := generate_filtered_config config ps
      let rec_ := process_exports config submit rest
      match rec_.1 with
      | .error () => (.error (), .post req :: rec_.2)
      | .ok tids =>
        let tids := match submit req with
          | some t => t :: tids
          | none => tids
        (.ok tids, .post req :: rec_.2)

/-- HDXProcessor.init_call (lines 139-165): build all_export_details, then
submit each export and return the collected task ids.  A fatal discovery
failure raises before the submission loop starts. -/
def init_call (config : List (String × JValue)) (countries : Option (List String))
    (fse : Option String) (sched : String → Nat → Option (List JValue))
    (submit : List (String × JValue) → Option String) :
    Except Unit (List String) × List Eff :=
  let built := all_export_details countries fse sched
  match built.1 with
  | .error () => (.error (), built.2)
  | .ok exports =>
    let processed := process_exports config submit exports
    (processed.1, built.2 ++ processed.2)

/-- The lambda invocation event: each field is none exactly when the
corresponding key is absent from the event dict, so that event.get picks the
default. -/
structure LambdaEvent where
  countries : Option (List String)
  fetch_scheduled_exports : Option String

/-- lambda_handler (lines 168-180): fail fast when CONFIG_JSON or
RAWDATA_API_AUTH_TOKEN is unset, read countries with default None and
fetch_scheduled_exports with default daily from the event, then run init_call
with both. -/
def lambda_handler (config_env : Option (List (String × JValue)))
    (token : Option String) (event : LambdaEvent)
    (sched : String → Nat → Option (List JValue))
    (submit : List (String × JValue) → Option String) :
    Except Unit (Except Unit (List String) × List Eff) :=
  match config_env with
  | none => .error ()
  | some config =>
    match token with
    | none => .error ()
    | some _ =>
      .ok (init_call config event.countries
        (some (event.fetch_scheduled_exports.getD "daily")) sched submit)

/-- Read index n of a list of dict objects, empty when out of range. -/
def listGet : List (List (String × JValue)) → Nat → List (String × JValue)
  | [], _ => []
  | x :: _, 0 => x
  | _ :: xs, n + 1 => listGet xs n

/-- Overwrite index n of a list of dict objects, unchanged when out of range. -/
def listSet : List (List (String × JValue)) → Nat → List (String × JValue) →
    List (List (String × JValue))
  | [], _, _ => []
  | _ :: xs, 0, v => v :: xs
  | x :: xs, n + 1, v => x :: listSet xs n v

/-- A heap of mutable Python dict objects, addressed by allocation index.  Only
top-level dicts are object references here: their values are immutable JValues,
matching the guarantee of copy.deepcopy that no nested structure is shared. -/
structure Heap where
  objs : List (List (String × JValue))

/-- Dereference an address. -/
def Heap.get (h : Heap) (a : Nat) : List (String × JValue) :=
  listGet h.objs a

/-- Allocate a fresh dict object, returning its address. -/
def Heap.alloc (h : Heap) (v : List (String × JValue)) : Heap × Nat :=
  (⟨h.objs ++ [v]⟩, h.objs.length)

/-- In-place dict assignment obj[key] = v through an object reference. -/
def Heap.setkey (h : Heap) (a : Nat) (key : String) (v : JValue) : Heap :=
  ⟨listSet h.objs a (setField (h.get a) key v)⟩

/-- generate_filtered_config as a heap transformer on the mutable self.config
object: config_temp = copy.deepcopy(self.config) allocates a fresh object with
the same contents, the loop mutates config_temp["key"] in place, and the
request (the dict that json.dumps serializes) is the final contents of
config_temp.  Nothing writes through the self.config reference. -/
def generate_filtered_config_heap (h : Heap) (selfConfig : Nat)
    (props : List (String × JValue)) : Heap × List (String × JValue) :=
  let allocated := h.alloc (h.get selfConfig)
  let tempAddr := allocated.2
  let mutated := (props.map Prod.fst).foldl
    (fun hh key => hh.setkey tempAddr "key" ((lookupField props key).getD JValue.null))
    allocated.1
  (mutated, mutated.get tempAddr)

/-- The GET outcome carries a status on which the re-poll loop of
track_tasks_status keeps looping: a status field is present and it is none of
SUCCESS, ERROR, FAILURE. -/
def loop_continues (r : GetResult) : Prop :=
  ∃ st, (retry_get_request r).getField "status" = some st ∧
    jeqStr st "SUCCESS" = false ∧ jeqStr st "ERROR" = false ∧ jeqStr st "FAILURE" = false

/-- The GET outcome carries a status terminal for the re-poll loop (SUCCESS,
ERROR or FAILURE) together with a result field holding v. -/
def loop_terminal_result (r : GetResult) (v : JValue) : Prop :=
  ∃ st, (retry_get_request r).getField "status" = some st ∧
    (jeqStr st "SUCCESS" || jeqStr st "ERROR" || jeqStr st "FAILURE") = true ∧
    (retry_get_request r).getField "result" = some v

/-- How one POST attempt terminates retry_post_request when it is not a
RetryError: the extracted task_id, a KeyError on a missing task_id, or another
exception propagating; none for the caught RetryError. -/
def post_step : PostOutcome → Option SubmitResult
  | .ok body =>
    match body.getField "task_id" with
    | some t => some (.taskId t)
    | none => some .keyErrorRaised
  | .otherExn => some .otherRaised
  | .retryError => none

/-- A status response body carrying PENDING. -/
def pendingResp : GetResult :=
  .ok (.obj [("status", .str "PENDING")])

/-- Status-call oracle returning PENDING, PENDING, then SUCCESS with result
x = 1 (the sequence of the spec test property for the Result Set). -/
def seq_pending_success : Nat → GetResult :=
  fun n => if n < 2 then pendingResp
    else .ok (.obj [("status", .str "SUCCESS"), ("result", .obj [("x", .num 1)])])

/-- Status-call oracle whose first response is PENDING and whose every later
GET raises a transport error. -/
def seq_pending_then_transport_error : Nat → GetResult :=
  fun n => if n = 0 then pendingResp else .exn

/-- Status-call oracle returning PENDING and then a terminal FAILURE status
whose result field holds the string boom. -/
def seq_pending_then_failure : Nat → GetResult :=
  fun n => if n = 0 then pendingResp
    else .ok (.obj [("status", .str "FAILURE"), ("result", .str "boom")])

/-- Status-call oracle returning PENDING, then the unrecognized status REVOKED,
then SUCCESS with result r. -/
def seq_pending_revoked_success : Nat → GetResult :=
  fun n => if n = 0 then pendingResp
    else if n = 1 then .ok (.obj [("status", .str "REVOKED")])
    else .ok (.obj [("status", .str "SUCCESS"), ("result", .str "r")])

/-- Status-call oracle whose every response carries the unrecognized status
REVOKED. -/
def seq_revoked : Nat → GetResult :=
  fun _ => .ok (.obj [("status", .str "REVOKED")])

/-- POST oracle that raises RetryError on the first two full attempts and then
succeeds with task_id abc. -/
def seq_rate_limited_twice : Nat → PostOutcome :=
  fun n => if n < 2 then .retryError else .ok (.obj [("task_id", .str "abc")])

/-- Scheduled-discovery oracle that succeeds on the first attempt with an empty
feature list. -/
def sched_first_attempt_empty : String → Nat → Option (List JValue) :=
  fun _ n => if n = 0 then some [] else none

/-- Scheduled-discovery oracle whose every attempt raises. -/
def sched_always_fails : String → Nat → Option (List JValue) :=
  fun _ _ => none

/-- Submission oracle returning task id t1 for every request. -/
def submit_t1 : List (String × JValue) → Option String :=
  fun _ => some "t1"

theorem setField_setField (l : List (String × JValue)) (k : String) (a b : JValue) :
    setField (setField l k a) k b = setField l k b := by
  induction l with
  | nil => simp [setField]
  | cons hd tl ih =>
    obtain ⟨k1, v1⟩ := hd
    by_cases hk : k1 = k
    · subst hk; simp [setField]
    · simp [setField, hk, ih]

theorem setField_foldl (g : String → JValue) (v : JValue) :
    ∀ (ks : List String) (config : List (String × JValue)),
    setField (ks.foldl (fun acc key => setField acc "key" (g key)) config) "key" v
      = setField config "key" v := by
  intro ks
  induction ks with
  | nil => intro config; rfl
  | cons k tl ih =>
    intro config
    simp only [List.foldl_cons]
    rw [ih, setField_setField]

theorem lookupField_concat_self (ps : List (String × JValue)) (k : String) (v : JValue)
    (h : k ∉ ps.map Prod.fst) : lookupField (ps ++ [(k, v)]) k = some v := by
  induction ps with
  | nil => simp [lookupField]
  | cons hd tl ih =>
    obtain ⟨k1, v1⟩ := hd
    simp only [List.map_cons, List.mem_cons, not_or] at h
    have hk1 : ¬(k1 = k) := fun hh => h.1 hh.symm
    simp only [List.cons_append, lookupField, if_neg hk1]
    exact ih h.2

theorem lookupField_setField_self (l : List (String × JValue)) (k : String) (v : JValue) :
    lookupField (setField l k v) k = some v := by
  induction l with
  | nil => simp [setField, lookupField]
  | cons hd tl ih =>
    obtain ⟨k1, v1⟩ := hd
    by_cases hk : k1 = k
    · simp [setField, hk, lookupField]
    · simp [setField, hk, lookupField, ih]

theorem lookupField_setField_ne (l : List (String × JValue)) (k f : String) (v : JValue)
    (hf : f ≠ k) : lookupField (setField l k v) f = lookupField l f := by
  have hkf : ¬(k = f) := fun hh => hf hh.symm
  induction l with
  | nil => simp [setField, lookupField, hkf]
  | cons hd tl ih =>
    obtain ⟨k1, v1⟩ := hd
    by_cases hk : k1 = k
    · subst hk; simp [setField, lookupField, hkf]
    · simp [setField, hk, lookupField, ih]

theorem gfc_concat (config ps : List (String × JValue)) (k : String) (v : JValue)
    (h : k ∉ ps.map Prod.fst) :
    generate_filtered_config config (ps ++ [(k, v)]) = setField config "key" v := by
  unfold generate_filtered_config
  rw [List.map_append, List.foldl_append]
  simp only [List.map_cons, List.map_nil, List.foldl_cons, List.foldl_nil]
  rw [lookupField_concat_self ps k v h]
  exact setField_foldl _ v (ps.map Prod.fst) config

/-- C5: in generate_filtered_config the merge writes the fixed field name key,
so with several property keys only the override of the last-iterated key is
retained, and with a single property key the override field of the produced
request is the value of that key while every other template field is
unchanged. -/
theorem c5_last_key_wins (config ps : List (String × JValue)) (k : String) (v : JValue)
    (h : k ∉ ps.map Prod.fst) :
    generate_filtered_config config (ps ++ [(k, v)]) = setField config "key" v ∧
    lookupField (generate_filtered_config config [(k, v)]) "key" = some v ∧
    ∀ f, f ≠ "key" →
      lookupField (generate_filtered_config config [(k, v)]) f = lookupField config f := by
  have hsingle : generate_filtered_config config [(k, v)] = setField config "key" v := by
    have := gfc_concat config [] k v (by simp)
    simpa using this
  refine ⟨gfc_concat config ps k v h, ?_, ?_⟩
  · rw [hsingle]; exact lookupField_setField_self config "key" v
  · intro f hf; rw [hsingle]; exact lookupField_setField_ne config "key" f v hf

theorem c5_last_key_wins_witness :
    generate_filtered_config [("geometry", JValue.null)]
        [("iso3", JValue.str "KEN"), ("iso3b", JValue.str "UGA")]
      = setField [("geometry", JValue.null)] "key" (JValue.str "UGA") ∧
    lookupField (generate_filtered_config [("geometry", JValue.null)]
        [("iso3b", JValue.str "UGA")]) "key" = some (JValue.str "UGA") := by
  have h := c5_last_key_wins [("geometry", JValue.null)] [("iso3", JValue.str "KEN")]
    "iso3b" (JValue.str "UGA") (by simp)
  exact ⟨h.1, h.2.1⟩

/-- C7: a descriptor with an empty property mapping produces a request that is
structurally identical to the base template, a no-op copy. -/
theorem c7_empty_props_noop (config : List (String × JValue)) :
    generate_filtered_config config [] = config := rfl

theorem listGet_concat_length (l : List (List (String × JValue)))
    (v : List (String × JValue)) : listGet (l ++ [v]) l.length = v := by
  induction l with
  | nil => rfl
  | cons hd tl ih => simpa [listGet] using ih

theorem listGet_append_lt (l : List (List (String × JValue)))
    (v : List (String × JValue)) (n : Nat) (h : n < l.length) :
    listGet (l ++ [v]) n = listGet l n := by
  induction l generalizing n with
  | nil => exact absurd h (by simp)
  | cons hd tl ih =>
    cases n with
    | zero => rfl
    | succ m => exact ih m (by simpa using h)

theorem listSet_length (l : List (List (String × JValue))) (n : Nat)
    (v : List (String × JValue)) : (listSet l n v).length = l.length := by
  induction l generalizing n with
  | nil => rfl
  | cons hd tl ih =>
    cases n with
    | zero => rfl
    | succ m => simp [listSet, ih]

theorem listGet_listSet_ne (l : List (List (String × JValue))) (a b : Nat)
    (v : List (String × JValue)) (h : a ≠ b) :
    listGet (listSet l b v) a = listGet l a := by
  induction l generalizing a b with
  | nil => rfl
  | cons hd tl ih =>
    cases b with
    | zero =>
      cases a with
      | zero => exact absurd rfl h
      | succ m => rfl
    | succ bb =>
      cases a with
      | zero => rfl
      | succ aa => exact ih aa bb (fun hh => h (by rw [hh]))

theorem listGet_listSet_self (l : List (List (String × JValue))) (n : Nat)
    (v : List (String × JValue)) (h : n < l.length) :
    listGet (listSet l n v) n = v := by
  induction l generalizing n with
  | nil => exact absurd h (by simp)
  | cons hd tl ih =>
    cases n with
    | zero => rfl
    | succ m => exact ih m (by simpa using h)

theorem heap_foldl_frame (g : String → JValue) (t a : Nat) (ha : a ≠ t) :
    ∀ (ks : List String) (h : Heap),
    (ks.foldl (fun hh key => hh.setkey t "key" (g key)) h).get a = h.get a := by
  intro ks
  induction ks with
  | nil => intro h; rfl
  | cons k tl ih =>
    intro h
    simp only [List.foldl_cons]
    rw [ih]
    exact listGet_listSet_ne h.objs a t _ ha

theorem heap_foldl_get_temp (g : String → JValue) (t : Nat) :
    ∀ (ks : List String) (h : Heap), t < h.objs.length →
    (ks.foldl (fun hh key => hh.setkey t "key" (g key)) h).get t
      = ks.foldl (fun acc key => setField acc "key" (g key)) (h.get t) := by
  intro ks
  induction ks with
  | nil => intro h _; rfl
  | cons k tl ih =>
    intro h ht
    simp only [List.foldl_cons]
    rw [ih (h.setkey t "key" (g k)) (by simpa [Heap.setkey, listSet_length] using ht)]
    have : (h.setkey t "key" (g k)).get t = setField (h.get t) "key" (g k) :=
      listGet_listSet_self h.objs t _ ht
    rw [this]

/-- C8: building a request never mutates the template object held by the
orchestrator: for every heap, every valid address of the self.config object and
every property mapping, the heap after generate_filtered_config still holds the
original template at that address, and the produced request is the pure
function of the original template contents, derived from the independent deep
copy. -/
theorem c8_template_unmutated (h : Heap) (a : Nat) (props : List (String × JValue))
    (ha : a < h.objs.length) :
    (generate_filtered_config_heap h a props).1.get a = h.get a ∧
    (generate_filtered_config_heap h a props).2
      = generate_filtered_config (h.get a) props := by
  have hne : a ≠ h.objs.length := Nat.ne_of_lt ha
  have halloc : (h.alloc (h.get a)).1.get (h.objs.length) = h.get a := by
    simpa [Heap.alloc, Heap.get] using listGet_concat_length h.objs (h.get a)
  have hlen : h.objs.length < (h.alloc (h.get a)).1.objs.length := by
    simp [Heap.alloc]
  have haddr : (h.alloc (h.get a)).2 = h.objs.length := rfl
  constructor
  · show ((props.map Prod.fst).foldl _ (h.alloc (h.get a)).1).get a = h.get a
    rw [haddr, heap_foldl_frame _ h.objs.length a hne]
    simpa [Heap.alloc, Heap.get] using listGet_append_lt h.objs (h.get a) a ha
  · show ((props.map Prod.fst).foldl _ (h.alloc (h.get a)).1).get ((h.alloc (h.get a)).2) = _
    rw [haddr, heap_foldl_get_temp _ h.objs.length (props.map Prod.fst) _ hlen, halloc]
    rfl

theorem c8_template_unmutated_witness :
    (generate_filtered_config_heap ⟨[[("geometry", JValue.null)]]⟩ 0
        [("iso3", JValue.str "KEN")]).1.get 0 = [("geometry", JValue.null)] ∧
    (generate_filtered_config_heap ⟨[[("geometry", JValue.null)]]⟩ 0
        [("iso3", JValue.str "KEN")]).2
      = generate_filtered_config [("geometry", JValue.null)] [("iso3", JValue.str "KEN")] := by
  have h := c8_template_unmutated ⟨[[("geometry", JValue.null)]]⟩ 0
    [("iso3", JValue.str "KEN")] (by simp)
  exact ⟨h.1, h.2⟩

theorem jeqStr_eq_true_iff (v : JValue) (s : String) : jeqStr v s = true ↔ v = .str s := by
  cases v <;> simp [jeqStr]

theorem poll_loop_continues (oracle : Nat → GetResult) (i fuel : Nat)
    (h : loop_continues (oracle i)) :
    poll_loop oracle i (fuel + 1) = poll_loop oracle (i + 1) fuel := by
  obtain ⟨st, hst, h1, h2, h3⟩ := h
  simp [poll_loop, hst, h1, h2, h3]

theorem poll_loop_terminal (oracle : Nat → GetResult) (i fuel : Nat) (v : JValue)
    (h : loop_terminal_result (oracle i) v) :
    poll_loop oracle i (fuel + 1) = some (.recorded v, i + 1) := by
  obtain ⟨st, hst, hterm, hres⟩ := h
  simp [poll_loop, hst, hterm, hres]

theorem poll_loop_reaches (oracle : Nat → GetResult) (v : JValue) :
    ∀ (fuel j m : Nat), (∀ i, j ≤ i → i < m → loop_continues (oracle i)) →
    loop_terminal_result (oracle m) v → j ≤ m → m < j + fuel →
    poll_loop oracle j fuel = some (.recorded v, m + 1) := by
  intro fuel
  induction fuel with
  | zero => intro j m _ _ hjm hlt; omega
  | succ f ih =>
    intro j m hcont hterm hjm hlt
    rcases Nat.eq_or_lt_of_le hjm with heq | hlt2
    · subst heq; exact poll_loop_terminal oracle j f v hterm
    · rw [poll_loop_continues oracle j f (hcont j le_rfl hlt2)]
      exact ih (j + 1) m (fun i h1 h2 => hcont i (by omega) h2) hterm hlt2 (by omega)

/-- C1 (code bug): the polling stage does not always downgrade a transport
error to a per-task terminal outcome.  On the concrete input of a single task
whose first status call returns PENDING and whose second raises a transport
error, retry_get_request synthesizes a response with status ERROR and no
result field, the re-poll loop reads response result, and the KeyError
propagates out of track_tasks_status instead of an entry being recorded. -/
theorem c1_poll_transport_error_keyerror :
    track_one seq_pending_then_transport_error 5 = some (.raised, 2) ∧
    track_tasks_status (fun _ => seq_pending_then_transport_error) 5 ["a"] []
      = some (.error ()) :=
  ⟨rfl, rfl⟩

/-- C2 (counterexample): a task whose responses are PENDING and then the
recognized terminal failure status FAILURE with result boom gets the payload
boom recorded, not the literal string FAILURE as the claim states. -/
theorem c2_counterexample :
    track_one seq_pending_then_failure 5 = some (.recorded (.str "boom"), 2) ∧
    JValue.str "boom" ≠ JValue.str "FAILURE" :=
  ⟨rfl, by simp⟩

/-- C2 (amended): the entry recorded for a task is the response result payload
when the first status call returns SUCCESS; the literal string FAILURE is
recorded when the first status call returns any status other than SUCCESS,
PENDING and STARTED; and when a terminal status (SUCCESS, ERROR or FAILURE) is
first reached after non-terminal responses in the re-poll loop, the recorded
entry is the result payload of that response regardless of which terminal status it
is, after one status call per response seen. -/
theorem c2_recorded_entries (oracle : Nat → GetResult) (fuel : Nat) :
    (∀ r, (retry_get_request (oracle 0)).getField "status" = some (.str "SUCCESS") →
      (retry_get_request (oracle 0)).getField "result" = some r →
      track_one oracle fuel = some (.recorded r, 1)) ∧
    (∀ st, (retry_get_request (oracle 0)).getField "status" = some st →
      jeqStr st "SUCCESS" = false → jeqStr st "PENDING" = false →
      jeqStr st "STARTED" = false →
      track_one oracle fuel = some (.recorded (.str "FAILURE"), 1)) ∧
    (∀ st m v, (retry_get_request (oracle 0)).getField "status" = some st →
      (jeqStr st "PENDING" || jeqStr st "STARTED") = true →
      (∀ i, 1 ≤ i → i < m → loop_continues (oracle i)) →
      loop_terminal_result (oracle m) v → 1 ≤ m → m < 1 + fuel →
      track_one oracle fuel = some (.recorded v, m + 1)) := by
  refine ⟨?_, ?_, ?_⟩
  · intro r hst hres
    simp [track_one, hst, hres, jeqStr]
  · intro st hst h1 h2 h3
    simp [track_one, hst, h1, h2, h3]
  · intro st m v hst hps hcont hterm hm hfuel
    have hsucc : jeqStr st "SUCCESS" = false := by
      rcases Bool.or_eq_true_iff.mp hps with hp | hs
      · rw [jeqStr_eq_true_iff] at hp; subst hp; rfl
      · rw [jeqStr_eq_true_iff] at hs; subst hs; rfl
    have hloop : track_one oracle fuel = poll_loop oracle 1 fuel := by
      simp [track_one, hst, hsucc, hps]
    rw [hloop]
    exact poll_loop_reaches oracle v fuel 1 m hcont hterm hm hfuel

theorem c2_recorded_entries_witness :
    track_one seq_pending_then_failure 5 = some (.recorded (.str "boom"), 2) :=
  (c2_recorded_entries seq_pending_then_failure 5).2.2 (.str "PENDING") 1 (.str "boom")
    rfl rfl (fun i h1 h2 => absurd h2 (by omega))
    ⟨.str "FAILURE", rfl, rfl, rfl⟩ le_rfl (by omega)

/-- C4 (counterexample): when the unrecognized status REVOKED appears inside
the re-poll loop (after a PENDING response) the task is not treated as
terminal: polling continues and the later SUCCESS payload r is recorded after
a third call, instead of the literal FAILURE being recorded at the REVOKED
response. -/
theorem c4_counterexample :
    track_one seq_pending_revoked_success 5 = some (.recorded (.str "r"), 3) ∧
    JValue.str "r" ≠ JValue.str "FAILURE" :=
  ⟨rfl, by simp⟩

/-- C4 (amended): a status value outside PENDING, STARTED, SUCCESS, FAILURE,
ERROR is treated as immediately terminal with the literal FAILURE recorded
only when it appears on the first status query of a task — such a task yields
the entry FAILURE after exactly one status call — while inside the re-poll
loop any status outside SUCCESS, ERROR, FAILURE is non-terminal and polling
continues. -/
theorem c4_unrecognized_status (oracle : Nat → GetResult) (fuel : Nat) (st : JValue) :
    ((retry_get_request (oracle 0)).getField "status" = some st →
      jeqStr st "PENDING" = false → jeqStr st "STARTED" = false →
      jeqStr st "SUCCESS" = false → jeqStr st "FAILURE" = false →
      jeqStr st "ERROR" = false →
      track_one oracle fuel = some (.recorded (.str "FAILURE"), 1) ∧
      ∀ tid, track_tasks_status (fun _ => oracle) fuel [tid] []
        = some (.ok [(tid, .str "FAILURE")])) ∧
    (∀ i, loop_continues (oracle i) →
      poll_loop oracle i (fuel + 1) = poll_loop oracle (i + 1) fuel) := by
  constructor
  · intro hst h1 h2 h3 _ _
    have hone : track_one oracle fuel = some (.recorded (.str "FAILURE"), 1) := by
      simp [track_one, hst, h1, h2, h3]
    refine ⟨hone, fun tid => ?_⟩
    simp [track_tasks_status, hone, setField]
  · intro i hc
    exact poll_loop_continues oracle i fuel hc

theorem c4_unrecognized_status_witness :
    track_one seq_revoked 5 = some (.recorded (.str "FAILURE"), 1) ∧
    track_tasks_status (fun _ => seq_revoked) 5 ["tid0"] []
      = some (.ok [("tid0", .str "FAILURE")]) := by
  have h := (c4_unrecognized_status seq_revoked 5 (.str "REVOKED")).1
    rfl rfl rfl rfl rfl rfl
  exact ⟨h.1, h.2 "tid0"⟩

/-- C9: a single task whose status calls return PENDING, PENDING, then SUCCESS
with result x = 1 ends with the Result Set mapping the task id to that payload,
after exactly 3 status calls. -/
theorem c9_pending_pending_success :
    track_tasks_status (fun _ => seq_pending_success) 5 ["t"] []
      = some (.ok [("t", .obj [("x", .num 1)])]) ∧
    track_one seq_pending_success 5 = some (.recorded (.obj [("x", .num 1)]), 3) :=
  ⟨rfl, rfl⟩

theorem retry_post_go (oracle : Nat → PostOutcome) (res : SubmitResult) :
    ∀ (k n fuel : Nat), (∀ i, i < k → oracle (n + i) = .retryError) → k < fuel →
    post_step (oracle (n + k)) = some res →
    retry_post_request oracle n fuel = some (res, List.replicate k 61) := by
  intro k
  induction k with
  | zero =>
    intro n fuel _ hfuel hstep
    cases fuel with
    | zero => omega
    | succ f =>
      simp only [Nat.add_zero] at hstep
      cases ho : oracle n with
      | ok body =>
        rw [ho] at hstep
        simp only [post_step] at hstep
        cases hb : body.getField "task_id" with
        | some t =>
          rw [hb] at hstep
          simp only [Option.some.injEq] at hstep
          simp [retry_post_request, ho, hb, ← hstep]
        | none =>
          rw [hb] at hstep
          simp only [Option.some.injEq] at hstep
          simp [retry_post_request, ho, hb, ← hstep]
      | retryError => rw [ho] at hstep; simp [post_step] at hstep
      | otherExn =>
        rw [ho] at hstep
        simp only [post_step, Option.some.injEq] at hstep
        simp [retry_post_request, ho, ← hstep]
  | succ kk ih =>
    intro n fuel hk hfuel hstep
    cases fuel with
    | zero => omega
    | succ f =>
      have h0 : oracle n = .retryError := by simpa using hk 0 (by omega)
      have hshift : ∀ i, i < kk → oracle (n + 1 + i) = .retryError := by
        intro i hi
        have := hk (i + 1) (by omega)
        rwa [show n + (i + 1) = n + 1 + i by omega] at this
      have hstep2 : post_step (oracle (n + 1 + kk)) = some res := by
        rwa [show n + (kk + 1) = n + 1 + kk by omega] at hstep
      have hrec := ih (n + 1) f hshift (by omega) hstep2
      simp [retry_post_request, h0, hrec, List.replicate]

/-- C3: exactly the RetryError raised when the bounded transport budget is
exhausted is caught by the submission stage: after k such cooldown rounds, each
recorded as a 61-second sleep, the next POST outcome decides the result — HTTP
success with a task_id field returns it, a missing task_id is a hard KeyError
failure that propagates, and any other exception propagates uncaught.  k is
arbitrary, so the cooldown-and-restart policy is unbounded. -/
theorem c3_retry_post_contract (oracle : Nat → PostOutcome) (k fuel : Nat)
    (hk : ∀ i, i < k → oracle i = .retryError) (hfuel : k < fuel) :
    (∀ body t, oracle k = .ok body → body.getField "task_id" = some t →
      retry_post_request oracle 0 fuel = some (.taskId t, List.replicate k 61)) ∧
    (∀ body, oracle k = .ok body → body.getField "task_id" = none →
      retry_post_request oracle 0 fuel = some (.keyErrorRaised, List.replicate k 61)) ∧
    (oracle k = .otherExn →
      retry_post_request oracle 0 fuel = some (.otherRaised, List.replicate k 61)) := by
  have hk0 : ∀ i, i < k → oracle (0 + i) = .retryError := by
    intro i hi; rw [Nat.zero_add]; exact hk i hi
  have h0k : (0 : Nat) + k = k := Nat.zero_add k
  refine ⟨?_, ?_, ?_⟩
  · intro body t ho hb
    exact retry_post_go oracle (.taskId t) k 0 fuel hk0 hfuel
      (by rw [h0k, ho]; simp [post_step, hb])
  · intro body ho hb
    exact retry_post_go oracle .keyErrorRaised k 0 fuel hk0 hfuel
      (by rw [h0k, ho]; simp [post_step, hb])
  · intro ho
    exact retry_post_go oracle .otherRaised k 0 fuel hk0 hfuel
      (by rw [h0k, ho]; simp [post_step])

theorem c3_retry_post_contract_witness :
    retry_post_request seq_rate_limited_twice 0 5
      = some (.taskId (.str "abc"), [61, 61]) :=
  (c3_retry_post_contract seq_rate_limited_twice 2 5
      (fun i hi => by interval_cases i <;> rfl) (by omega)).1
    (.obj [("task_id", .str "abc")]) (.str "abc") rfl rfl

/-- C6: when every one of the 3 scheduled-discovery attempts fails, the
discovery stage raises a fatal error out of init_call and the observed effect
trace holds exactly the 3 discovery GETs — no submission POST is ever
issued. -/
theorem c6_discovery_fatal (config : List (String × JValue))
    (countries : Option (List String)) (f : String)
    (sched : String → Nat → Option (List JValue))
    (submit : List (String × JValue) → Option String)
    (hf : f ≠ "") (h0 : sched f 0 = none) (h1 : sched f 1 = none)
    (h2 : sched f 2 = none) :
    init_call config countries (some f) sched submit
      = (.error (), [.schedGet f 0, .schedGet f 1, .schedGet f 2]) ∧
    ∀ req, Eff.post req ∉ (init_call config countries (some f) sched submit).2 := by
  have htr : truthyStr (some f) = true := by simp [truthyStr, hf]
  have hsched : get_scheduled_exports f (sched f)
      = (.error (), [.schedGet f 0, .schedGet f 1, .schedGet f 2]) := by
    show get_scheduled_go f (sched f) [0, 1, 2] = _
    simp [get_scheduled_go, h0, h1, h2]
  have hmain : init_call config countries (some f) sched submit
      = (.error (), [.schedGet f 0, .schedGet f 1, .schedGet f 2]) := by
    simp [init_call, all_export_details, htr, hsched, Except.map]
  refine ⟨hmain, fun req => ?_⟩
  rw [hmain]
  simp

theorem c6_discovery_fatal_witness :
    init_call [] none (some "daily") sched_always_fails submit_t1
      = (.error (), [.schedGet "daily" 0, .schedGet "daily" 1, .schedGet "daily" 2]) :=
  (c6_discovery_fatal [] none "daily" sched_always_fails submit_t1
    (by simp) rfl rfl rfl).1

/-- C10: an event without the fetch_scheduled_exports key still runs scheduled
discovery with frequency daily: lambda_handler with config and token present
calls init_call with that default, all_export_details is the explicit country
descriptors followed by the fetched features whenever the first discovery
attempt succeeds, and the daily discovery GET is issued in every case — the
two descriptor sources run together rather than being mutually exclusive. -/
theorem c10_lambda_scheduled_default (config : List (String × JValue)) (token : String)
    (event : LambdaEvent) (sched : String → Nat → Option (List JValue))
    (submit : List (String × JValue) → Option String)
    (he : event.fetch_scheduled_exports = none) :
    lambda_handler (some config) (some token) event sched submit
      = .ok (init_call config event.countries (some "daily") sched submit) ∧
    (∀ feats, sched "daily" 0 = some feats →
      all_export_details event.countries (some "daily") sched
        = (.ok ((event.countries.getD []).map descriptor_of_country ++ feats),
            [.schedGet "daily" 0])) ∧
    Eff.schedGet "daily" 0 ∈ (all_export_details event.countries (some "daily") sched).2 := by
  have htr : truthyStr (some "daily") = true := by simp [truthyStr]
  refine ⟨?_, ?_, ?_⟩
  · simp [lambda_handler, he]
  · intro feats hfe
    have hfetch : get_scheduled_exports "daily" (sched "daily")
        = (.ok feats, [.schedGet "daily" 0]) := by
      show get_scheduled_go "daily" (sched "daily") [0, 1, 2] = _
      simp [get_scheduled_go, hfe]
    cases hc : event.countries with
    | none => simp [all_export_details, truthyList, htr, hfetch, Except.map]
    | some cs =>
      cases cs with
      | nil => simp [all_export_details, truthyList, htr, hfetch, Except.map]
      | cons c rest => simp [all_export_details, truthyList, htr, hfetch, Except.map]
  · have : (all_export_details event.countries (some "daily") sched).2
        = (get_scheduled_exports "daily" (sched "daily")).2 := by
      simp [all_export_details, htr]
    rw [this]
    show Eff.schedGet "daily" 0 ∈ (get_scheduled_go "daily" (sched "daily") [0, 1, 2]).2
    cases hs : sched "daily" 0 with
    | some fs => simp [get_scheduled_go, hs]
    | none => simp [get_scheduled_go, hs]

theorem c10_lambda_scheduled_default_witness :
    lambda_handler (some []) (some "tok") ⟨some ["KEN"], none⟩
        sched_first_attempt_empty submit_t1
      = .ok (init_call [] (some ["KEN"]) (some "daily")
          sched_first_attempt_empty submit_t1) ∧
    all_export_details (some ["KEN"]) (some "daily") sched_first_attempt_empty
      = (.ok [descriptor_of_country "KEN"], [.schedGet "daily" 0]) := by
  have h := c10_lambda_scheduled_default [] "tok" ⟨some ["KEN"], none⟩
    sched_first_attempt_empty submit_t1 rfl
  exact ⟨h.1, by simpa using h.2.1 [] rfl⟩

end HDXExtractor
